import Mathlib

/-!
Verification of the Deequ issue-bot triage script (src/scripts/issue-bot.py).

Texts are modelled as `List Char` (`Str`), Python floats as `ℚ`, the S3
object store as a finite partial map `String → Option Str`, and every
external collaborator (Bedrock inference, GitHub retrieval, S3 call
outcomes) as an explicit oracle parameter recording the outcome of the
corresponding call.  Each function below is a direct translation of the
Python method of the same name.
-/

namespace IssueBot

abbrev Str := List Char

/-- Python str.strip(): drop whitespace from both ends. -/
def stripChars (l : Str) : Str :=
  ((l.dropWhile Char.isWhitespace).reverse.dropWhile Char.isWhitespace).reverse

/-- Python `pat in s` substring test. -/
def occursInStr (pat s : Str) : Bool := decide (pat <:+: s)

/-- Python str.lower(). -/
def lowerStr (s : Str) : Str := s.map Char.toLower

/-- The dict returned by analyze_with_bedrock / fallback_analysis. -/
structure Analysis where
  response : Str
  should_escalate : Bool
  category : String
deriving DecidableEq

/-- A GitHub comment: author login and body. -/
structure Comment where
  author : Str
  body : Str
deriving DecidableEq

/-- The issue data handed to the bot (title, body, recent_comments). -/
structure IssueData where
  title : Str
  body : Str
  recent_comments : List Comment
deriving DecidableEq

/-- The dict returned by analyze_customer_feedback. -/
structure SentimentVerdict where
  sentiment : String
  confidence : ℚ
deriving DecidableEq

/-- The literal sentinel scanned for in the model output. -/
def sentinel : Str := "ESCALATE_TO_TEAM".toList

/-- Outcome of one bedrock.invoke_model call as seen by analyze_with_bedrock:
either the call raised (transport error), or it returned a payload whose
content field is absent (`none`), or present with a list of text items. -/
inductive BedrockOutcome where
  | transportError
  | payload (content : Option (List Str))
deriving DecidableEq

/-- fallback_analysis: the canned Analysis returned when Bedrock fails. -/
def fallback_analysis : Analysis :=
  { response := sentinel, should_escalate := true, category := "question" }

/-- analyze_with_bedrock, lines 354-391: on a transport error, a missing
content field or an empty content list, return fallback_analysis; otherwise
strip the first item's text and scan it for the sentinel substring. -/
def analyze_with_bedrock (outcome : BedrockOutcome) : Analysis :=
  match outcome with
  | .transportError => fallback_analysis
  | .payload none => fallback_analysis
  | .payload (some []) => fallback_analysis
  | .payload (some (t :: _)) =>
      let ai_response := stripChars t
      { response := ai_response
        should_escalate := occursInStr sentinel ai_response
        category := "question" }

/-! Relevance Truncator (smart_truncate, lines 174-211) and the key-term
extraction it depends on (extract_key_terms, lines 600-614). -/

/-- extract_key_terms, lines 600-614: fixed keyword rules over the lowered
issue content, capped at 5 terms. -/
def extract_key_terms (issue_content : Str) : List Str :=
  let content_lower := lowerStr issue_content
  let t1 := if occursInStr ("hasnumberofdistinctvalues".toList) content_lower = true then
      ["hasNumberOfDistinctValues".toList, "Histogram".toList] else []
  let t2 := if occursInStr ("count column".toList) content_lower = true then
      ["column".toList, "count".toList, "conflict".toList] else []
  let t3 := if occursInStr ("dqdl".toList) content_lower = true then
      ["DQDL".toList, "EvaluateDataQuality".toList] else []
  let t4 := if (occursInStr ("error".toList) content_lower ||
        occursInStr ("exception".toList) content_lower ||
        occursInStr ("fail".toList) content_lower) = true then
      ["error".toList, "exception".toList] else []
  (t1 ++ t2 ++ t3 ++ t4).take 5

/-- The truncation budget: 7000 tokens at 4 chars per token. -/
def TARGET_CHARS : ℕ := 7000 * 4

/-- The section delimiter smart_truncate splits on. -/
def sepSeq : Str := "\n## ".toList

/-- Fuel-driven worker for Python str.split(sep): scan left to right, emit
the accumulator at each non-overlapping occurrence of sep. The fuel starts
at the length of the text, which each step strictly consumes. -/
def splitOnAux (sep : Str) : ℕ → Str → Str → List Str
  | _, acc, [] => [acc.reverse]
  | 0, acc, l => [acc.reverse ++ l]
  | fuel + 1, acc, c :: rest =>
      if decide (sep <+: (c :: rest)) = true then
        acc.reverse :: splitOnAux sep fuel [] ((c :: rest).drop sep.length)
      else
        splitOnAux sep fuel (c :: acc) rest

/-- Python content.split(sep) for a nonempty separator. -/
def splitSeq (sep s : Str) : List Str :=
  if sep = [] then [s] else splitOnAux sep s.length [] s

/-- The relevance score of one section: number of search terms occurring
case-insensitively in it, plus the positional bonus max(0, 10 - i), which is
truncated ℕ subtraction. -/
def sectionScore (search_terms : List Str) (i : ℕ) (sec : Str) : ℕ :=
  search_terms.countP (fun term => occursInStr (lowerStr term) (lowerStr sec)) + (10 - i)

/-- The greedy loop of smart_truncate: walk the sections in sorted order,
append each whole section (re-prefixing the delimiter except on the first
append) while the running size stays strictly under the target, and stop at
the first section that would overflow. -/
def greedyAppend (target : ℕ) : List (ℕ × Str) → Str → Str
  | [], result => result
  | (_, sec) :: rest, result =>
      let section_text := if result = [] then sec else sepSeq ++ sec
      if (result ++ section_text).length < target then
        greedyAppend target rest (result ++ section_text)
      else
        result

/-- smart_truncate, lines 174-211: split at section headings; with at most
one section take a plain prefix of the budget; otherwise score the sections,
sort stably by score descending (Python sorted with reverse=True) and pack
greedily under the budget. -/
def smart_truncate (content : Str) (issue : IssueData) : Str :=
  let sections := splitSeq sepSeq content
  if sections.length ≤ 1 then content.take TARGET_CHARS
  else
    let search_terms := extract_key_terms (issue.title ++ (' ' :: issue.body))
    let scored_sections := sections.enum.map (fun p => (sectionScore search_terms p.1 p.2, p.2))
    let sorted_sections := scored_sections.mergeSort (fun a b => decide (b.1 ≤ a.1))
    greedyAppend TARGET_CHARS sorted_sections []

/-- Whole sections joined with the section delimiter (the shape of
smart_truncate's output when more than one section exists). -/
def joinWithSep (sep : Str) : List Str → Str
  | [] => []
  | [s] => s
  | s :: rest => s ++ sep ++ joinWithSep sep rest

/-! Sentiment Scorer (get_sentiment_score, lines 528-567) and Feedback
Analyzer (analyze_customer_feedback, lines 494-526). -/

/-- The login the bot posts under. -/
def botLogin : Str := "github-actions[bot]".toList

/-- get_sentiment_score, lines 528-567. `bedrockText` is the text item of the
Bedrock response, `none` when the call raised or the payload was malformed;
`parseFloat` is Python float() on the stripped text, `none` on ValueError.
A parsed score is clamped into [-1, 1]; every failure yields `none`. -/
def get_sentiment_score (parseFloat : Str → Option ℚ) (bedrockText : Option Str) :
    Option ℚ :=
  match bedrockText with
  | none => none
  | some t =>
      let sentiment_text := stripChars t
      match parseFloat sentiment_text with
      | none => none
      | some score => some (max (-1) (min 1 score))

/-- The comment loop of analyze_customer_feedback, lines 500-513: walk the
comments tracking whether a bot comment has been seen; score human comments
after the first bot comment whose stripped body is longer than 10 characters,
keeping only parseable scores. `score` is the sentiment oracle (the outcome
of get_sentiment_score on each body). -/
def collectScores (score : Str → Option ℚ) : List Comment → Bool → List ℚ
  | [], _ => []
  | c :: rest, bot_comment_found =>
      if c.author = botLogin then collectScores score rest true
      else if bot_comment_found = true ∧ 10 < (stripChars c.body).length then
        match score c.body with
        | some s => s :: collectScores score rest bot_comment_found
        | none => collectScores score rest bot_comment_found
      else collectScores score rest bot_comment_found

/-- analyze_customer_feedback, lines 494-526: aggregate the collected scores
into a SentimentVerdict with a dead zone of 0.3 around zero. -/
def analyze_customer_feedback (score : Str → Option ℚ) (comments : List Comment) :
    SentimentVerdict :=
  let feedback_scores := collectScores score comments false
  if feedback_scores = [] then ⟨"neutral", 0⟩
  else
    let avg_sentiment := feedback_scores.sum / (feedback_scores.length : ℚ)
    if 3 / 10 < avg_sentiment then ⟨"positive", avg_sentiment⟩
    else if avg_sentiment < -(3 / 10) then ⟨"negative", |avg_sentiment|⟩
    else ⟨"neutral", |avg_sentiment|⟩

/-- The comments strictly after the first bot-authored comment. -/
def commentsAfterFirstBot (comments : List Comment) : List Comment :=
  (comments.dropWhile (fun c => !decide (c.author = botLogin))).drop 1

/-- Declarative description of the scores the Feedback Analyzer aggregates:
among the comments after the first bot comment, the parseable scores of the
non-bot comments whose stripped body is longer than 10 characters. -/
def declarativeScores (score : Str → Option ℚ) (comments : List Comment) : List ℚ :=
  (commentsAfterFirstBot comments).filterMap (fun c =>
    if c.author = botLogin then none
    else if 10 < (stripChars c.body).length then score c.body
    else none)

/-- The classification rule of analyze_customer_feedback applied to a given
list of scores. -/
def classifyScores (scores : List ℚ) : SentimentVerdict :=
  if scores = [] then ⟨"neutral", 0⟩
  else
    let m := scores.sum / (scores.length : ℚ)
    if 3 / 10 < m then ⟨"positive", m⟩
    else if m < -(3 / 10) then ⟨"negative", |m|⟩
    else ⟨"neutral", |m|⟩

/-! Knowledge persistence (safe_s3_update, lines 616-649, and
update_knowledge_base, lines 651-689) over an explicit object store. -/

/-- The S3 bucket contents: a partial map from key to object body. -/
def Store : Type := String → Option Str

/-- s3.put_object: bind a key to a body. -/
def insertStore (s : Store) (k : String) (v : Str) : Store :=
  fun k2 => if k2 = k then some v else s k2

/-- s3.delete_object: remove a key. -/
def removeStore (s : Store) (k : String) : Store :=
  fun k2 => if k2 = k then none else s k2

/-- The canonical knowledge-base key. -/
def canonicalKey : String := "deequ-kb.md"

/-- The temporary key used by safe_s3_update: key, ".tmp.", timestamp. -/
def tempKeyFor (key ts : String) : String := key ++ ".tmp." ++ ts

/-- Outcomes of the three S3 calls inside safe_s3_update: whether the put to
the temporary key, the copy to the final key, and the delete of the
temporary key succeed (a false means that call raises). -/
structure S3Env where
  putTempOk : Bool
  copyOk : Bool
  deleteOk : Bool
deriving DecidableEq

/-- safe_s3_update, lines 616-649: write the full content to a temporary
key, copy it to the final key, delete the temporary key; any raise is caught
and reported as a false result, leaving the store as that step left it. -/
def safe_s3_update (env : S3Env) (store : Store) (key ts : String) (content : Str) :
    Bool × Store :=
  let temp_key := tempKeyFor key ts
  if env.putTempOk = false then (false, store)
  else
    let s1 := insertStore store temp_key content
    if env.copyOk = false then (false, s1)
    else
      match s1 temp_key with
      | none => (false, s1)
      | some v =>
          let s2 := insertStore s1 key v
          if env.deleteOk = false then (false, s2)
          else (true, removeStore s2 temp_key)

/-- Outcomes of the collaborator calls inside update_knowledge_base: the S3
call outcomes, the synthesized new section (none when the Bedrock synthesis
call raises) and the timestamp used for the temporary key. -/
structure UkbEnv where
  s3 : S3Env
  synthesized : Option Str
  ts : String

/-- update_knowledge_base, lines 651-689: skip when the issue content bears
agent-authorship markers; synthesize a new section; append it to the
in-memory knowledge base and persist via safe_s3_update; adopt the new
in-memory value only when the persist reports success. Returns the new
in-memory knowledge base and the new store. -/
def update_knowledge_base (env : UkbEnv) (store : Store) (kb : Str)
    (issue_content repo_context : Str) : Str × Store :=
  if (occursInStr ("github-actions[bot]".toList) issue_content ||
      occursInStr ("AI assistance".toList) issue_content) = true then (kb, store)
  else
    match env.synthesized with
    | none => (kb, store)
    | some new_section =>
        let enhanced_kb := kb ++ ("\n\n".toList) ++ new_section
        let r := safe_s3_update env.s3 store canonicalKey env.ts enhanced_kb
        if r.1 = true then (enhanced_kb, r.2) else (kb, r.2)

/-! Knowledge Evolution Controller (enhance_knowledge_base_if_needed,
lines 413-463, and enhance_knowledge_base_with_validation, lines 393-411). -/

/-- Outcomes of the collaborator calls inside one
enhance_knowledge_base_if_needed invocation: whether the S3 client for the
rate check is available, what the head_object call on the marker reports
(none when it raises, e.g. the marker does not exist), the current clock,
the duplicate-check verdict, the retrieved repository context (empty when
the search finds nothing or fails), the update_knowledge_base outcomes, and
whether the marker put succeeds. -/
structure LearnEnv where
  rateClientOk : Bool
  headReport : Option ℚ
  now : ℚ
  isDup : Bool
  repoContext : Str
  ukb : UkbEnv
  markerPutOk : Bool

/-- The shared state an invocation reads and writes: the rate-limit marker's
last-modified time (none when the marker object does not exist), the
in-memory knowledge base, and the object store. -/
structure BotState where
  marker : Option ℚ
  kb : Str
  store : Store

/-- The rate check of lines 424-432: proceed when head_object raises (no
marker) or the marker is at least 3600 seconds old; skip when it is
strictly younger than 3600 seconds. -/
def rateCheckPasses (env : LearnEnv) : Bool :=
  match env.headReport with
  | none => true
  | some t => if env.now - t < 3600 then false else true

/-- enhance_knowledge_base_if_needed, lines 413-463: escalation gate, rate
limit, duplicate check, key-term extraction, repository retrieval, then
update_knowledge_base followed by the marker refresh (attempted whenever the
retrieval returned content, regardless of the update outcome). -/
def enhance_knowledge_base_if_needed (env : LearnEnv) (st : BotState)
    (issue : IssueData) (analysis : Analysis) : BotState :=
  if analysis.should_escalate = false then st
  else if env.rateClientOk = false then st
  else if rateCheckPasses env = false then st
  else
    let issue_content := issue.title ++ ('\n' :: issue.body)
    if env.isDup = true then st
    else if extract_key_terms issue_content = [] then st
    else if env.repoContext = [] then st
    else
      let r := update_knowledge_base env.ukb st.store st.kb issue_content env.repoContext
      let marker2 := if env.markerPutOk = true then some env.now else st.marker
      ⟨marker2, r.1, r.2⟩

/-- The route enhance_knowledge_base_with_validation takes, lines 398-411:
learn from validated positive feedback, skip (logging an escalation pattern)
on negative feedback, learn tentatively from an unsolved issue without
feedback, or wait for validation. -/
inductive ValidationAction where
  | learn
  | skipNegative
  | learnTentative
  | waitValidation
deriving DecidableEq

/-- enhance_knowledge_base_with_validation, lines 393-411: gate learning on
the Feedback Analyzer's verdict. Returns the resulting state and the route
taken. -/
def enhance_knowledge_base_with_validation (score : Str → Option ℚ) (env : LearnEnv)
    (st : BotState) (issue : IssueData) (analysis : Analysis) :
    BotState × ValidationAction :=
  let feedback := analyze_customer_feedback score issue.recent_comments
  if feedback.sentiment = "positive" ∧ 2 / 5 < feedback.confidence then
    (enhance_knowledge_base_if_needed env st issue analysis, .learn)
  else if feedback.sentiment = "negative" then
    (st, .skipNegative)
  else if analysis.should_escalate = true then
    (enhance_knowledge_base_if_needed env st issue analysis, .learnTentative)
  else (st, .waitValidation)

/-- One controller invocation: its collaborator outcomes and its inputs. -/
structure Invocation where
  env : LearnEnv
  issue : IssueData
  analysis : Analysis

/-- The times (env.now) of the invocations of a trace that change the store
at the canonical knowledge-base key. -/
def writeTimes : List Invocation → BotState → List ℚ
  | [], _ => []
  | inv :: rest, st =>
      let st2 := enhance_knowledge_base_if_needed inv.env st inv.issue inv.analysis
      if st2.store canonicalKey = st.store canonicalKey then writeTimes rest st2
      else inv.env.now :: writeTimes rest st2

/-- A fixed, non-racing trace: each invocation's head_object call reports the
true marker state at its turn, and each marker put succeeds. -/
def TraceOK : List Invocation → BotState → Prop
  | [], _ => True
  | inv :: rest, st =>
      inv.env.headReport = st.marker ∧ inv.env.markerPutOk = true ∧
        TraceOK rest (enhance_knowledge_base_if_needed inv.env st inv.issue inv.analysis)

/-! Concrete inputs used by witness and counterexample theorems. -/

/-- A two-section context blob for exercising smart_truncate. -/
def c3Content : Str := "Alpha\n## Beta".toList

/-- The prior knowledge-base blob for the persistence scenarios. -/
def c7OldKb : Str := "old knowledge".toList

/-- A store holding the prior blob at the canonical key. -/
def c7Store : Store := fun k => if k = canonicalKey then some c7OldKb else none

/-- Issue content without agent-authorship markers. -/
def c7Issue : Str := "count column conflict".toList

/-- Retrieved repository context for the persistence scenarios. -/
def c7Repo : Str := "repo context".toList

/-- The synthesized new knowledge-base section. -/
def c7NewSection : Str := "new section".toList

/-- Persistence outcomes where only the temp-key delete fails. -/
def c7EnvDeleteFails : UkbEnv := ⟨⟨true, true, false⟩, some c7NewSection, "20240101"⟩

/-- Persistence outcomes where every S3 step succeeds. -/
def c7EnvAllOk : UkbEnv := ⟨⟨true, true, true⟩, some c7NewSection, "20240101"⟩

/-- The enhanced blob update_knowledge_base persists in those scenarios. -/
def c7Enhanced : Str := c7OldKb ++ ("\n\n".toList) ++ c7NewSection

/-- An initial state: no marker, a small knowledge base, an empty store. -/
def initState : BotState := ⟨none, "kb".toList, fun _ => none⟩

/-- An issue whose content yields key terms and carries no bot markers. -/
def learnIssue : IssueData := ⟨"error in dqdl".toList, "details".toList, []⟩

/-- An escalating Analysis. -/
def escalateAnalysis : Analysis := ⟨sentinel, true, "question"⟩

/-- Persistence outcomes where everything succeeds. -/
def ukbAllOk : UkbEnv := ⟨⟨true, true, true⟩, some "new sec".toList, "ts1"⟩

/-- A negative human reply body. -/
def c2NegBody : Str := "this did not help at all".toList

/-- A sentiment oracle scoring the negative reply -1. -/
def c2Score : Str → Option ℚ := fun b => if b = c2NegBody then some (-1) else none

/-- A bot answer followed by the negative human reply. -/
def c2Comments : List Comment :=
  [⟨botLogin, "here is the answer".toList⟩, ⟨"alice".toList, c2NegBody⟩]

/-- The issue carrying the negative-feedback conversation. -/
def c2Issue : IssueData := ⟨"error in dqdl".toList, "details".toList, c2Comments⟩

/-- Collaborator outcomes in which every learning step would succeed. -/
def learnEnvAllOk : LearnEnv := ⟨true, none, 0, false, "ctx".toList, ukbAllOk, true⟩

/-- Collaborator outcomes where the marker put succeeds but synthesis fails. -/
def c10Env : LearnEnv := ⟨true, none, 0, false, "ctx".toList, ⟨⟨true, true, true⟩, none, "ts1"⟩, true⟩

/-- First invocation of the cooldown witness trace: no marker yet, time 0. -/
def c6Env1 : LearnEnv := ⟨true, none, 0, false, "ctx".toList, ukbAllOk, true⟩

/-- Second invocation of the cooldown witness trace: marker reported at 0,
time 4000, outside the cooldown. -/
def c6Env2 : LearnEnv := ⟨true, some 0, 4000, false, "ctx".toList, ukbAllOk, true⟩

/-- The cooldown witness trace: two invocations 4000 seconds apart. -/
def c6WitTrace : List Invocation :=
  [⟨c6Env1, learnIssue, escalateAnalysis⟩, ⟨c6Env2, learnIssue, escalateAnalysis⟩]

/-- First invocation of the counterexample trace: the marker put fails. -/
def c6BadEnv1 : LearnEnv := ⟨true, none, 0, false, "ctx".toList, ukbAllOk, false⟩

/-- Second invocation of the counterexample trace, 100 seconds later; the
head call truthfully reports that no marker exists. -/
def c6BadEnv2 : LearnEnv := ⟨true, none, 100, false, "ctx".toList, ukbAllOk, true⟩

/-- The counterexample trace: two canonical writes 100 seconds apart. -/
def c6BadTrace : List Invocation :=
  [⟨c6BadEnv1, learnIssue, escalateAnalysis⟩, ⟨c6BadEnv2, learnIssue, escalateAnalysis⟩]

/-- A sentiment oracle for the short-reply scenario (never consulted there,
since the only post-agent reply fails the length filter). -/
def c9Score : Str → Option ℚ := fun _ => some 1

/-- A bot answer followed by one short human reply. -/
def c9Comments : List Comment :=
  [⟨botLogin, "here is the solution".toList⟩, ⟨"alice".toList, "thanks!".toList⟩]

/-- A small issue mentioning dqdl and error keywords. -/
def c3Issue : IssueData := ⟨"error in dqdl".toList, "details".toList, []⟩

theorem occursInStr_iff (pat s : Str) : occursInStr pat s = true ↔ pat <:+: s := by
  simp [occursInStr]

theorem stripChars_isInfix (l : Str) : stripChars l <:+: l := by
  unfold stripChars
  have h1 : (l.dropWhile Char.isWhitespace).reverse.dropWhile Char.isWhitespace <:+
      (l.dropWhile Char.isWhitespace).reverse := List.dropWhile_suffix _
  have h2 : ((l.dropWhile Char.isWhitespace).reverse.dropWhile Char.isWhitespace).reverse <+:
      l.dropWhile Char.isWhitespace := by
    rw [← List.reverse_suffix]
    simpa using h1
  exact h2.isInfix.trans (List.dropWhile_suffix _).isInfix

theorem isInfix_dropWhile (q : Char → Bool) (p l : Str) (hne : p ≠ [])
    (hp : ∀ c ∈ p, q c = false) (h : p <:+: l) : p <:+: l.dropWhile q := by
  induction l with
  | nil =>
      rw [List.infix_nil] at h
      exact absurd h hne
  | cons c l ih =>
      by_cases hc : q c
      · rw [List.dropWhile_cons_of_pos hc]
        rcases List.infix_cons_iff.mp h with hpre | hinf
        · rcases hpre with ⟨t, ht⟩
          cases p with
          | nil => exact absurd rfl hne
          | cons a as =>
              have ha : a = c := by
                have := congrArg (fun x => x.head?) ht
                simpa using this
              have : q a = false := hp a (by simp)
              rw [ha, hc] at this
              exact absurd this (by simp)
        · exact ih hinf
      · rw [List.dropWhile_cons_of_neg hc]
        exact h

theorem isInfix_stripChars_iff (p l : Str) (hne : p ≠ [])
    (hp : ∀ c ∈ p, c.isWhitespace = false) :
    p <:+: stripChars l ↔ p <:+: l := by
  constructor
  · intro h
    exact h.trans (stripChars_isInfix l)
  · intro h
    have hne' : p.reverse ≠ [] := by simpa using hne
    have hp' : ∀ c ∈ p.reverse, c.isWhitespace = false := by
      intro c hc
      exact hp c (List.mem_reverse.mp hc)
    have h1 : p <:+: l.dropWhile Char.isWhitespace :=
      isInfix_dropWhile _ _ _ hne hp h
    have h2 : p.reverse <:+: (l.dropWhile Char.isWhitespace).reverse := by
      rw [List.reverse_infix]
      exact h1
    have h3 : p.reverse <:+:
        ((l.dropWhile Char.isWhitespace).reverse.dropWhile Char.isWhitespace) :=
      isInfix_dropWhile _ _ _ hne' hp' h2
    have h4 : p.reverse.reverse <:+:
        ((l.dropWhile Char.isWhitespace).reverse.dropWhile Char.isWhitespace).reverse := by
      rw [List.reverse_infix]
      exact h3
    simpa [stripChars] using h4

/-- Claim C1: for every raw text returned by the inference collaborator (the
success path of analyze_with_bedrock), the produced Analysis has
should_escalate = true if and only if the literal substring ESCALATE_TO_TEAM
occurs, case-sensitively, anywhere in that raw text. -/
theorem escalation_sentinel_iff (t : Str) (rest : List Str) :
    (analyze_with_bedrock (.payload (some (t :: rest)))).should_escalate = true ↔
      sentinel <:+: t := by
  show occursInStr sentinel (stripChars t) = true ↔ sentinel <:+: t
  rw [occursInStr_iff]
  exact isInfix_stripChars_iff sentinel t (by decide) (by decide)

/-- Claim C5: whenever the inference call raises a transport error or the
response payload lacks (or has an empty) content field, analyze_with_bedrock
returns exactly the canned fallback Analysis
(response ESCALATE_TO_TEAM, should_escalate true, category question)
rather than propagating the error. -/
theorem bedrock_failure_returns_fallback :
    analyze_with_bedrock .transportError =
        ⟨"ESCALATE_TO_TEAM".toList, true, "question"⟩ ∧
      analyze_with_bedrock (.payload none) =
        ⟨"ESCALATE_TO_TEAM".toList, true, "question"⟩ ∧
      analyze_with_bedrock (.payload (some [])) =
        ⟨"ESCALATE_TO_TEAM".toList, true, "question"⟩ :=
  ⟨rfl, rfl, rfl⟩

theorem joinWithSep_append_one (sep : Str) (picked : List Str) (x : Str)
    (h : picked ≠ []) :
    joinWithSep sep (picked ++ [x]) = joinWithSep sep picked ++ sep ++ x := by
  induction picked with
  | nil => exact absurd rfl h
  | cons a t ih =>
      cases t with
      | nil => simp [joinWithSep]
      | cons b t2 =>
          have h2 := ih (by simp)
          calc joinWithSep sep ((a :: b :: t2) ++ [x])
              = a ++ sep ++ joinWithSep sep ((b :: t2) ++ [x]) := by
                simp [joinWithSep]
            _ = a ++ sep ++ (joinWithSep sep (b :: t2) ++ sep ++ x) := by rw [h2]
            _ = joinWithSep sep (a :: b :: t2) ++ sep ++ x := by
                simp [joinWithSep, List.append_assoc]

theorem greedyAppend_cons (target : ℕ) (n : ℕ) (sec : Str) (rest : List (ℕ × Str))
    (acc : Str) :
    greedyAppend target ((n, sec) :: rest) acc =
      if (acc ++ (if acc = [] then sec else sepSeq ++ sec)).length < target then
        greedyAppend target rest (acc ++ (if acc = [] then sec else sepSeq ++ sec))
      else acc := rfl

theorem greedyAppend_spec (target : ℕ) (S : List Str) :
    ∀ (l : List (ℕ × Str)) (acc : Str) (picked : List Str),
      (∀ p ∈ l, p.2 ∈ S) → (∀ s ∈ picked, s ∈ S) →
      acc = joinWithSep sepSeq picked → acc.length < target →
      ∃ picked2, (∀ s ∈ picked2, s ∈ S) ∧
        greedyAppend target l acc = joinWithSep sepSeq picked2 ∧
        (greedyAppend target l acc).length < target := by
  intro l
  induction l with
  | nil =>
      intro acc picked _ hpicked hacc hlen
      exact ⟨picked, hpicked, by simpa [greedyAppend] using hacc,
        by simpa [greedyAppend] using hlen⟩
  | cons hd rest ih =>
      intro acc picked hl hpicked hacc hlen
      obtain ⟨n, sec⟩ := hd
      have hsec : sec ∈ S := hl (n, sec) (by simp)
      have hrest : ∀ p ∈ rest, p.2 ∈ S := fun p hp => hl p (by simp [hp])
      rw [greedyAppend_cons]
      by_cases hempty : acc = []
      · subst hempty
        have hinner : (if ([] : Str) = [] then sec else sepSeq ++ sec) = sec := if_pos rfl
        rw [hinner]
        by_cases hfit : (([] : Str) ++ sec).length < target
        · rw [if_pos hfit]
          exact ih ([] ++ sec) [sec] hrest (by simpa using hsec)
            (by simp [joinWithSep]) hfit
        · rw [if_neg hfit]
          exact ⟨[], by simp, by simp [joinWithSep], by simpa using hlen⟩
      · have hpne : picked ≠ [] := by
          intro h0
          rw [h0] at hacc
          simp [joinWithSep] at hacc
          exact hempty hacc
        have hinner : (if acc = [] then sec else sepSeq ++ sec) = sepSeq ++ sec :=
          if_neg hempty
        rw [hinner]
        by_cases hfit : (acc ++ (sepSeq ++ sec)).length < target
        · rw [if_pos hfit]
          refine ih (acc ++ (sepSeq ++ sec)) (picked ++ [sec]) hrest ?_ ?_ hfit
          · intro s hs
            rcases List.mem_append.mp hs with hs | hs
            · exact hpicked s hs
            · simp at hs
              rw [hs]
              exact hsec
          · rw [joinWithSep_append_one sepSeq picked sec hpne, ← hacc]
            simp [List.append_assoc]
        · rw [if_neg hfit]
          exact ⟨picked, hpicked, hacc, hlen⟩

/-- Claim C3: when the context blob splits into more than one section, the
Relevance Truncator's output (sections scored by term count plus positional
bonus, appended whole in descending score order while under the
28000-character budget, stopping at the first overflow) has length at most
the budget and consists only of whole sections of the input, never cutting
mid-section. -/
theorem smart_truncate_spec (content : Str) (issue : IssueData)
    (h : 1 < (splitSeq sepSeq content).length) :
    (smart_truncate content issue).length ≤ TARGET_CHARS ∧
      ∃ picked, (∀ s ∈ picked, s ∈ splitSeq sepSeq content) ∧
        smart_truncate content issue = joinWithSep sepSeq picked := by
  unfold smart_truncate
  rw [if_neg (by omega)]
  set S := splitSeq sepSeq content with hS
  set terms := extract_key_terms (issue.title ++ (' ' :: issue.body)) with hterms
  set scored := S.enum.map (fun p => (sectionScore terms p.1 p.2, p.2)) with hscored
  set sorted := scored.mergeSort (fun a b => decide (b.1 ≤ a.1)) with hsorted
  have hmem : ∀ p ∈ sorted, p.2 ∈ S := by
    intro p hp
    rw [hsorted] at hp
    have hp2 : p ∈ scored := List.mem_mergeSort.mp hp
    rw [hscored] at hp2
    rcases List.mem_map.mp hp2 with ⟨q, hq, hpq⟩
    have : q.2 ∈ List.map Prod.snd S.enum := List.mem_map_of_mem Prod.snd hq
    rw [List.enum_map_snd] at this
    rw [← hpq]
    exact this
  obtain ⟨picked2, hp2, heq, hlt⟩ :=
    greedyAppend_spec TARGET_CHARS S sorted [] [] hmem (by simp)
      (by simp [joinWithSep]) (by norm_num [TARGET_CHARS])
  exact ⟨le_of_lt hlt, picked2, hp2, heq⟩

theorem collectScores_true_eq (score : Str → Option ℚ) (comments : List Comment) :
    collectScores score comments true = comments.filterMap (fun c =>
      if c.author = botLogin then none
      else if 10 < (stripChars c.body).length then score c.body
      else none) := by
  induction comments with
  | nil => rfl
  | cons c rest ih =>
      by_cases hbot : c.author = botLogin
      · simp [collectScores, hbot, List.filterMap_cons, ih]
      · by_cases hlen : 10 < (stripChars c.body).length
        · cases hs : score c.body with
          | some v => simp [collectScores, hbot, hlen, hs, List.filterMap_cons, ih]
          | none => simp [collectScores, hbot, hlen, hs, List.filterMap_cons, ih]
        · simp [collectScores, hbot, hlen, List.filterMap_cons, ih]

theorem collectScores_false_eq (score : Str → Option ℚ) (comments : List Comment) :
    collectScores score comments false = declarativeScores score comments := by
  induction comments with
  | nil => rfl
  | cons c rest ih =>
      by_cases hbot : c.author = botLogin
      · rw [show collectScores score (c :: rest) false = collectScores score rest true
            from by simp [collectScores, hbot]]
        rw [collectScores_true_eq]
        unfold declarativeScores commentsAfterFirstBot
        rw [List.dropWhile_cons_of_neg (by simp [hbot])]
        simp
      · rw [show collectScores score (c :: rest) false = collectScores score rest false
            from by simp [collectScores, hbot]]
        rw [ih]
        unfold declarativeScores commentsAfterFirstBot
        rw [List.dropWhile_cons_of_pos (by simp [hbot])]

theorem analyze_customer_feedback_eq (score : Str → Option ℚ) (comments : List Comment) :
    analyze_customer_feedback score comments =
      classifyScores (declarativeScores score comments) := by
  unfold analyze_customer_feedback classifyScores
  rw [collectScores_false_eq]

/-- Claim C4: if no agent-authored comment precedes any human comment the
Feedback Analyzer returns the neutral verdict with confidence 0; otherwise it
classifies the arithmetic mean m of the parseable scores of the comments it
scores after the first agent comment: positive with confidence m when
m is above 3/10, negative with confidence the absolute value of m when m is
below -(3/10), neutral with confidence the absolute value of m otherwise, and
neutral with confidence 0 when no scorable comment remains. -/
theorem feedback_verdict_spec (score : Str → Option ℚ) (comments : List Comment) :
    ((∀ c ∈ commentsAfterFirstBot comments, c.author = botLogin) →
        analyze_customer_feedback score comments = ⟨"neutral", 0⟩) ∧
      analyze_customer_feedback score comments =
        classifyScores (declarativeScores score comments) := by
  refine ⟨?_, analyze_customer_feedback_eq score comments⟩
  intro h
  have hnil : declarativeScores score comments = [] := by
    rw [declarativeScores, List.filterMap_eq_nil_iff]
    intro c hc
    rw [if_pos (h c hc)]
  rw [analyze_customer_feedback_eq, hnil]
  rfl

theorem mem_collectScores (score : Str → Option ℚ) (comments : List Comment) :
    ∀ (flag : Bool) (q : ℚ), q ∈ collectScores score comments flag →
      ∃ c ∈ comments, score c.body = some q := by
  induction comments with
  | nil => intro flag q hq; simp [collectScores] at hq
  | cons c rest ih =>
      intro flag q hq
      by_cases hbot : c.author = botLogin
      · rw [show collectScores score (c :: rest) flag = collectScores score rest true
            from by simp [collectScores, hbot]] at hq
        obtain ⟨c2, hc2, hs⟩ := ih true q hq
        exact ⟨c2, by simp [hc2], hs⟩
      · by_cases hcond : flag = true ∧ 10 < (stripChars c.body).length
        · rw [show collectScores score (c :: rest) flag =
              (match score c.body with
               | some s => s :: collectScores score rest flag
               | none => collectScores score rest flag)
              from by simp [collectScores, hbot, hcond]] at hq
          cases hs : score c.body with
          | some v =>
              rw [hs] at hq
              rcases List.mem_cons.mp hq with hqv | hq2
              · exact ⟨c, by simp, by rw [hs, hqv]⟩
              · obtain ⟨c2, hc2, hs2⟩ := ih flag q hq2
                exact ⟨c2, by simp [hc2], hs2⟩
          | none =>
              rw [hs] at hq
              obtain ⟨c2, hc2, hs2⟩ := ih flag q hq
              exact ⟨c2, by simp [hc2], hs2⟩
        · rw [show collectScores score (c :: rest) flag = collectScores score rest flag
              from by simp [collectScores, hbot, hcond]] at hq
          obtain ⟨c2, hc2, hs⟩ := ih flag q hq
          exact ⟨c2, by simp [hc2], hs⟩

theorem get_sentiment_score_bounds (parseFloat : Str → Option ℚ)
    (bedrockText : Option Str) (q : ℚ)
    (h : get_sentiment_score parseFloat bedrockText = some q) : -1 ≤ q ∧ q ≤ 1 := by
  cases bedrockText with
  | none => simp [get_sentiment_score] at h
  | some t =>
      cases hp : parseFloat (stripChars t) with
      | none => simp [get_sentiment_score, hp] at h
      | some s =>
          have hq : q = max (-1) (min 1 s) := by
            simp [get_sentiment_score, hp] at h
            exact h.symm
          subst hq
          constructor
          · exact le_max_left _ _
          · exact max_le (by norm_num) (min_le_left _ _)

/-- Claim C8: the Sentiment Scorer returns either a value clamped into
[-1, 1] or the explicit unparseable outcome (none) when the scoring call
fails or its result cannot be parsed; an unparseable result is never treated
as 0 and the caller excludes it from the aggregate, so every aggregated score
is in [-1, 1] and arises from a successfully parsed comment. -/
theorem sentiment_score_clamped_or_unparseable (parseFloat : Str → Option ℚ)
    (bedrockText : Option Str) :
    (get_sentiment_score parseFloat bedrockText = none ∨
      ∃ q, get_sentiment_score parseFloat bedrockText = some q ∧ -1 ≤ q ∧ q ≤ 1) ∧
    ∀ (oracle : Str → Option Str) (comments : List Comment) (flag : Bool) (q : ℚ),
      q ∈ collectScores (fun b => get_sentiment_score parseFloat (oracle b)) comments flag →
      (-1 ≤ q ∧ q ≤ 1) ∧
        ∃ c ∈ comments, get_sentiment_score parseFloat (oracle c.body) = some q := by
  constructor
  · cases hg : get_sentiment_score parseFloat bedrockText with
    | none => exact Or.inl rfl
    | some q =>
        exact Or.inr ⟨q, rfl, get_sentiment_score_bounds parseFloat bedrockText q hg⟩
  · intro oracle comments flag q hq
    obtain ⟨c, hc, hs⟩ :=
      mem_collectScores (fun b => get_sentiment_score parseFloat (oracle b)) comments flag q hq
    exact ⟨get_sentiment_score_bounds parseFloat (oracle c.body) q hs, c, hc, hs⟩

/-- Claim C9: the Feedback Analyzer scores only post-agent human comments
whose stripped body is strictly longer than 10 characters, so an issue whose
post-agent human replies are all that short yields the no-signal verdict. -/
theorem short_replies_yield_no_signal (score : Str → Option ℚ) (comments : List Comment)
    (h : ∀ c ∈ commentsAfterFirstBot comments, c.author ≠ botLogin →
        (stripChars c.body).length ≤ 10) :
    analyze_customer_feedback score comments = ⟨"neutral", 0⟩ := by
  have hnil : declarativeScores score comments = [] := by
    rw [declarativeScores, List.filterMap_eq_nil_iff]
    intro c hc
    by_cases hbot : c.author = botLogin
    · rw [if_pos hbot]
    · have hle := h c hc hbot
      rw [if_neg hbot, if_neg (by omega)]
  rw [analyze_customer_feedback_eq, hnil]
  rfl

/-- Witness for short_replies_yield_no_signal: a bot answer followed by a
7-character human reply gives the neutral verdict with confidence 0. -/
theorem short_replies_yield_no_signal_witness :
    analyze_customer_feedback c9Score c9Comments = ⟨"neutral", 0⟩ :=
  short_replies_yield_no_signal c9Score c9Comments (by decide)

theorem prodIfEq {α β : Type} (c : Prop) [Decidable c] {a b : α} {s : β} :
    (if c then (a, s) else (b, s)) = (if c then a else b, s) := by
  by_cases h : c <;> simp [h]

theorem tempKeyFor_ne (key ts : String) : tempKeyFor key ts ≠ key := by
  intro h
  have hlen := congrArg String.length h
  have h5 : String.length ".tmp." = 5 := rfl
  rw [tempKeyFor, String.length_append, String.length_append, h5] at hlen
  omega

/-- Claim C7 counterexample: when the temp-key delete fails after a
successful copy, update_knowledge_base reports a failed persist and keeps the
prior in-memory knowledge base, yet the canonical key already holds the new
blob — so on this persistence failure the canonical KnowledgeBase does not
remain intact, contrary to the claim. -/
theorem kb_persist_atomicity_counterexample :
    (update_knowledge_base c7EnvDeleteFails c7Store c7OldKb c7Issue c7Repo).1 = c7OldKb ∧
      (update_knowledge_base c7EnvDeleteFails c7Store c7OldKb c7Issue c7Repo).2 canonicalKey
        = some c7Enhanced ∧
      c7Store canonicalKey = some c7OldKb ∧ c7Enhanced ≠ c7OldKb := by
  refine ⟨by decide, by decide, by decide, by decide⟩

/-- Claim C7 (amended): knowledge persistence writes the full new blob to a
temporary key before the single copy step touches the canonical key; the
temporary key is deleted after a successful copy; the in-memory
KnowledgeBase is updated to the new content if and only if the persist
reports success; and on a failure of the temp-key put or of the copy step
the prior canonical KnowledgeBase remains intact. However, when the copy
succeeds and only the temp-key deletion fails, the persist reports failure
and the in-memory value keeps the prior blob while the canonical key already
holds the new one. -/
theorem kb_persist_atomicity (env : UkbEnv) (store : Store) (kb issue repo ns : Str)
    (enhanced : Str) (r : Bool × Store)
    (hguard : (occursInStr ("github-actions[bot]".toList) issue ||
        occursInStr ("AI assistance".toList) issue) = false)
    (hsyn : env.synthesized = some ns)
    (henh : enhanced = kb ++ ("\n\n".toList) ++ ns)
    (hr : r = safe_s3_update env.s3 store canonicalKey env.ts enhanced) :
    update_knowledge_base env store kb issue repo =
        (if r.1 = true then enhanced else kb, r.2) ∧
      (r.1 = true → r.2 canonicalKey = some enhanced ∧
        r.2 (tempKeyFor canonicalKey env.ts) = none) ∧
      (env.s3.putTempOk = false ∨ env.s3.copyOk = false →
        r.2 canonicalKey = store canonicalKey) := by
  have hcanne : canonicalKey ≠ tempKeyFor canonicalKey env.ts :=
    (tempKeyFor_ne canonicalKey env.ts).symm
  refine ⟨?_, ?_, ?_⟩
  · rw [update_knowledge_base, if_neg (by rw [hguard]; simp), hsyn]
    rw [hr, henh]
    exact prodIfEq _
  · intro hok
    rw [hr] at hok ⊢
    obtain ⟨⟨pt, cp, del⟩, syn, ts⟩ := env
    cases pt <;> cases cp <;> cases del <;>
      simp_all [safe_s3_update, insertStore, removeStore]
  · intro hfail
    rw [hr]
    obtain ⟨⟨pt, cp, del⟩, syn, ts⟩ := env
    cases pt <;> cases cp <;> cases del <;>
      simp_all [safe_s3_update, insertStore, removeStore]

/-- Witness for kb_persist_atomicity: with every S3 step succeeding the
persist succeeds, the canonical key holds the new blob and the temp key is
gone. -/
theorem kb_persist_atomicity_witness :
    (safe_s3_update c7EnvAllOk.s3 c7Store canonicalKey c7EnvAllOk.ts c7Enhanced).2
        canonicalKey = some c7Enhanced ∧
      (safe_s3_update c7EnvAllOk.s3 c7Store canonicalKey c7EnvAllOk.ts c7Enhanced).2
        (tempKeyFor canonicalKey c7EnvAllOk.ts) = none := by
  have h := kb_persist_atomicity c7EnvAllOk c7Store c7OldKb c7Issue c7Repo c7NewSection
    c7Enhanced (safe_s3_update c7EnvAllOk.s3 c7Store canonicalKey c7EnvAllOk.ts c7Enhanced)
    (by decide) rfl rfl rfl
  exact h.2.1 (by decide)

/-- Witness for smart_truncate_spec at a concrete two-section blob. -/
theorem smart_truncate_spec_witness :
    1 < (splitSeq sepSeq c3Content).length ∧
      ((smart_truncate c3Content c3Issue).length ≤ TARGET_CHARS ∧
        ∃ picked, (∀ s ∈ picked, s ∈ splitSeq sepSeq c3Content) ∧
          smart_truncate c3Content c3Issue = joinWithSep sepSeq picked) :=
  ⟨by decide, smart_truncate_spec c3Content c3Issue (by decide)⟩

theorem c2_feedback_negative :
    analyze_customer_feedback c2Score c2Comments = ⟨"negative", 1⟩ := by
  have hc : collectScores c2Score c2Comments false = [-1] := by decide
  simp only [analyze_customer_feedback, hc]
  norm_num

/-- Claim C2 counterexample: with a negative verdict and every collaborator
outcome favourable (retrieval content, synthesis and S3 all available), the
controller takes the skipNegative route: nothing is retrieved, synthesized
or persisted (the canonical key stays empty), the knowledge base and marker
are untouched and no correction comment is produced — there is no correction
path, contrary to the claim. -/
theorem negative_feedback_correction_counterexample :
    analyze_customer_feedback c2Score c2Comments = ⟨"negative", 1⟩ ∧
      (enhance_knowledge_base_with_validation c2Score learnEnvAllOk initState
          c2Issue escalateAnalysis).2 = .skipNegative ∧
      (enhance_knowledge_base_with_validation c2Score learnEnvAllOk initState
          c2Issue escalateAnalysis).1.kb = initState.kb ∧
      (enhance_knowledge_base_with_validation c2Score learnEnvAllOk initState
          c2Issue escalateAnalysis).1.marker = none ∧
      (enhance_knowledge_base_with_validation c2Score learnEnvAllOk initState
          c2Issue escalateAnalysis).1.store canonicalKey = none := by
  have hroute : enhance_knowledge_base_with_validation c2Score learnEnvAllOk initState
      c2Issue escalateAnalysis = (initState, .skipNegative) := by
    simp only [enhance_knowledge_base_with_validation,
      show c2Issue.recent_comments = c2Comments from rfl, c2_feedback_negative]
    rw [if_neg (by simp), if_pos trivial]
  exact ⟨c2_feedback_negative, by rw [hroute], by rw [hroute], by rw [hroute]; rfl,
    by rw [hroute]; rfl⟩

/-- Claim C2 (amended): whenever the Feedback Analyzer's verdict is negative,
the Knowledge Evolution Controller skips learning entirely for that
invocation, taking the skipNegative route (which only logs an escalation
pattern): no retrieval, synthesis, persistence or correction comment occurs,
and the state is returned unchanged. -/
theorem negative_feedback_skips_learning (score : Str → Option ℚ) (env : LearnEnv)
    (st : BotState) (issue : IssueData) (analysis : Analysis)
    (h : (analyze_customer_feedback score issue.recent_comments).sentiment = "negative") :
    enhance_knowledge_base_with_validation score env st issue analysis =
      (st, .skipNegative) := by
  have h1 : ¬((analyze_customer_feedback score issue.recent_comments).sentiment = "positive" ∧
      2 / 5 < (analyze_customer_feedback score issue.recent_comments).confidence) := by
    rintro ⟨hp, _⟩
    rw [h] at hp
    exact absurd hp (by decide)
  simp only [enhance_knowledge_base_with_validation]
  rw [if_neg h1, if_pos h]

/-- Witness for negative_feedback_skips_learning at the concrete
negative-feedback conversation. -/
theorem negative_feedback_skips_learning_witness :
    enhance_knowledge_base_with_validation c2Score learnEnvAllOk initState
      c2Issue escalateAnalysis = (initState, .skipNegative) :=
  negative_feedback_skips_learning c2Score learnEnvAllOk initState c2Issue escalateAnalysis
    (by rw [show c2Issue.recent_comments = c2Comments from rfl, c2_feedback_negative])

/-- Claim C10: in the Learn path, once retrieval has returned non-empty
supporting material (and the marker put call itself succeeds), the rate-limit
marker is refreshed to now regardless of whether the knowledge-base persist
step succeeded — including when synthesis fails or the authorship guard skips
the write, since no hypothesis constrains those outcomes — and any later
invocation whose head call reports that marker within the 3600-second
cooldown performs no learning and leaves its state unchanged. -/
theorem marker_refresh_regardless (env : LearnEnv) (st : BotState) (issue : IssueData)
    (analysis : Analysis)
    (h1 : analysis.should_escalate = true) (h2 : env.rateClientOk = true)
    (h3 : rateCheckPasses env = true) (h4 : env.isDup = false)
    (h5 : extract_key_terms (issue.title ++ ('\n' :: issue.body)) ≠ [])
    (h6 : env.repoContext ≠ []) (h7 : env.markerPutOk = true) :
    (enhance_knowledge_base_if_needed env st issue analysis).marker = some env.now ∧
      ∀ (env2 : LearnEnv) (st2 : BotState) (issue2 : IssueData) (analysis2 : Analysis),
        env2.headReport = some env.now → env2.now - env.now < 3600 →
        enhance_knowledge_base_if_needed env2 st2 issue2 analysis2 = st2 := by
  constructor
  · simp only [enhance_knowledge_base_if_needed]
    rw [if_neg (by rw [h1]; simp), if_neg (by rw [h2]; simp), if_neg (by rw [h3]; simp),
      if_neg (by rw [h4]; simp), if_neg h5, if_neg h6]
    simp [h7]
  · intro env2 st2 issue2 analysis2 hh hlt
    simp only [enhance_knowledge_base_if_needed]
    by_cases ha : analysis2.should_escalate = false
    · rw [if_pos ha]
    · rw [if_neg ha]
      by_cases hb : env2.rateClientOk = false
      · rw [if_pos hb]
      · rw [if_neg hb]
        have hrc : rateCheckPasses env2 = false := by
          simp only [rateCheckPasses, hh]
          rw [if_pos hlt]
        rw [if_pos hrc]

/-- Witness for marker_refresh_regardless: a learn attempt in which the
synthesis call fails (nothing is persisted) still refreshes the marker, and
a second invocation 100 seconds later with that marker reported is a no-op. -/
theorem marker_refresh_regardless_witness :
    (enhance_knowledge_base_if_needed c10Env initState learnIssue escalateAnalysis).marker
        = some 0 ∧
      enhance_knowledge_base_if_needed ⟨true, some 0, 100, false, "ctx".toList, ukbAllOk, true⟩
        initState learnIssue escalateAnalysis = initState := by
  have h := marker_refresh_regardless c10Env initState learnIssue escalateAnalysis
    rfl rfl rfl rfl (by decide) (by decide) rfl
  exact ⟨h.1, h.2 ⟨true, some 0, 100, false, "ctx".toList, ukbAllOk, true⟩
    initState learnIssue escalateAnalysis rfl (by norm_num [c10Env])⟩

theorem rateCheckPasses_some (env : LearnEnv) (m : ℚ) (hh : env.headReport = some m)
    (hp : rateCheckPasses env = true) : m + 3600 ≤ env.now := by
  simp only [rateCheckPasses, hh] at hp
  by_cases h : env.now - m < 3600
  · rw [if_pos h] at hp
    exact absurd hp (by simp)
  · linarith [not_lt.mp h]

theorem enhance_write_facts (env : LearnEnv) (st : BotState) (issue : IssueData)
    (analysis : Analysis)
    (hw : ¬((enhance_knowledge_base_if_needed env st issue analysis).store canonicalKey
        = st.store canonicalKey)) :
    rateCheckPasses env = true ∧
      (enhance_knowledge_base_if_needed env st issue analysis).marker =
        (if env.markerPutOk = true then some env.now else st.marker) := by
  simp only [enhance_knowledge_base_if_needed] at hw ⊢
  by_cases h1 : analysis.should_escalate = false
  · rw [if_pos h1] at hw
    exact absurd rfl hw
  · rw [if_neg h1] at hw ⊢
    by_cases h2 : env.rateClientOk = false
    · rw [if_pos h2] at hw
      exact absurd rfl hw
    · rw [if_neg h2] at hw ⊢
      by_cases h3 : rateCheckPasses env = false
      · rw [if_pos h3] at hw
        exact absurd rfl hw
      · rw [if_neg h3] at hw ⊢
        refine ⟨by revert h3; cases rateCheckPasses env <;> simp, ?_⟩
        by_cases h4 : env.isDup = true
        · rw [if_pos h4] at hw
          exact absurd rfl hw
        · rw [if_neg h4] at hw ⊢
          by_cases h5 : extract_key_terms (issue.title ++ ('\n' :: issue.body)) = []
          · rw [if_pos h5] at hw
            exact absurd rfl hw
          · rw [if_neg h5] at hw ⊢
            by_cases h6 : env.repoContext = []
            · rw [if_pos h6] at hw
              exact absurd rfl hw
            · rw [if_neg h6]

theorem enhance_marker_cases (env : LearnEnv) (st : BotState) (issue : IssueData)
    (analysis : Analysis) :
    (enhance_knowledge_base_if_needed env st issue analysis).marker = st.marker ∨
      ((enhance_knowledge_base_if_needed env st issue analysis).marker = some env.now ∧
        rateCheckPasses env = true) := by
  simp only [enhance_knowledge_base_if_needed]
  by_cases h1 : analysis.should_escalate = false
  · rw [if_pos h1]
    exact Or.inl rfl
  · rw [if_neg h1]
    by_cases h2 : env.rateClientOk = false
    · rw [if_pos h2]
      exact Or.inl rfl
    · rw [if_neg h2]
      by_cases h3 : rateCheckPasses env = false
      · rw [if_pos h3]
        exact Or.inl rfl
      · rw [if_neg h3]
        have hrt : rateCheckPasses env = true := by
          revert h3
          cases rateCheckPasses env <;> simp
        by_cases h4 : env.isDup = true
        · rw [if_pos h4]
          exact Or.inl rfl
        · rw [if_neg h4]
          by_cases h5 : extract_key_terms (issue.title ++ ('\n' :: issue.body)) = []
          · rw [if_pos h5]
            exact Or.inl rfl
          · rw [if_neg h5]
            by_cases h6 : env.repoContext = []
            · rw [if_pos h6]
              exact Or.inl rfl
            · rw [if_neg h6]
              by_cases h7 : env.markerPutOk = true
              · exact Or.inr ⟨by simp [h7], hrt⟩
              · exact Or.inl (by simp [h7])

theorem writeTimes_cons (inv : Invocation) (rest : List Invocation) (st : BotState) :
    writeTimes (inv :: rest) st =
      (if (enhance_knowledge_base_if_needed inv.env st inv.issue inv.analysis).store
            canonicalKey = st.store canonicalKey then
        writeTimes rest (enhance_knowledge_base_if_needed inv.env st inv.issue inv.analysis)
      else inv.env.now ::
        writeTimes rest (enhance_knowledge_base_if_needed inv.env st inv.issue inv.analysis)) :=
  rfl

theorem writeTimes_gap_aux : ∀ (trace : List Invocation) (st : BotState),
    TraceOK trace st →
    List.Pairwise (fun a b : ℚ => a + 3600 ≤ b) (writeTimes trace st) ∧
      ∀ w ∈ writeTimes trace st, ∀ m, st.marker = some m → m + 3600 ≤ w := by
  intro trace
  induction trace with
  | nil =>
      intro st _
      exact ⟨List.Pairwise.nil, by intro w hw; simp [writeTimes] at hw⟩
  | cons inv rest ih =>
      intro st hok
      obtain ⟨hhead, hput, hrest⟩ := hok
      obtain ⟨ihP, ihM⟩ :=
        ih (enhance_knowledge_base_if_needed inv.env st inv.issue inv.analysis) hrest
      rw [writeTimes_cons]
      by_cases hw : (enhance_knowledge_base_if_needed inv.env st inv.issue inv.analysis).store
          canonicalKey = st.store canonicalKey
      · rw [if_pos hw]
        refine ⟨ihP, ?_⟩
        intro w hwmem m hm
        rcases enhance_marker_cases inv.env st inv.issue inv.analysis with hsame | ⟨hnew, hrate⟩
        · exact ihM w hwmem m (hsame.trans hm)
        · have hmn : m + 3600 ≤ inv.env.now :=
            rateCheckPasses_some inv.env m (hhead.trans hm) hrate
          have h2 := ihM w hwmem inv.env.now hnew
          linarith
      · rw [if_neg hw]
        obtain ⟨hrate, hmarker⟩ := enhance_write_facts inv.env st inv.issue inv.analysis hw
        have hm2 : (enhance_knowledge_base_if_needed inv.env st inv.issue inv.analysis).marker
            = some inv.env.now := by
          rw [hmarker, if_pos hput]
        constructor
        · rw [List.pairwise_cons]
          exact ⟨fun w hwmem => ihM w hwmem inv.env.now hm2, ihP⟩
        · intro w hwmem m hm
          have hmn : m + 3600 ≤ inv.env.now :=
            rateCheckPasses_some inv.env m (hhead.trans hm) hrate
          rcases List.mem_cons.mp hwmem with hweq | hwmem2
          · rw [hweq]
            exact hmn
          · have h2 := ihM w hwmem2 inv.env.now hm2
            linarith

/-- Claim C6 (amended): for every fixed, non-racing trace in which the head
call reports the true marker state and every marker put succeeds, the
controller never performs two successful canonical-key writes less than 3600
seconds apart (the write times are pairwise at least 3600 apart); moreover a
canonical write happens in an invocation only when its head call reported no
marker or a marker at least 3600 seconds old. In the unamended claim the
separation was claimed unconditionally and with a strict "more than 3600
seconds old" marker age; the code proceeds at exactly 3600 seconds and, when
a marker put fails, can write twice within the window. -/
theorem kb_write_cooldown (trace : List Invocation) (st : BotState)
    (h : TraceOK trace st) :
    List.Pairwise (fun a b : ℚ => a + 3600 ≤ b) (writeTimes trace st) ∧
      ∀ (env : LearnEnv) (st2 : BotState) (issue : IssueData) (analysis : Analysis),
        ¬((enhance_knowledge_base_if_needed env st2 issue analysis).store canonicalKey
            = st2.store canonicalKey) →
        (env.headReport = none ∨ ∃ m, env.headReport = some m ∧ m + 3600 ≤ env.now) := by
  refine ⟨(writeTimes_gap_aux trace st h).1, ?_⟩
  intro env st2 issue analysis hw
  obtain ⟨hrate, _⟩ := enhance_write_facts env st2 issue analysis hw
  cases hh : env.headReport with
  | none => exact Or.inl rfl
  | some m => exact Or.inr ⟨m, rfl, rateCheckPasses_some env m hh hrate⟩

/-- Witness for kb_write_cooldown: a truthful two-invocation trace (second
head call reporting the marker the first one put at time 0) satisfies the
pairwise 3600-second separation of its write times. -/
theorem kb_write_cooldown_witness :
    List.Pairwise (fun a b : ℚ => a + 3600 ≤ b) (writeTimes c6WitTrace initState) :=
  (kb_write_cooldown c6WitTrace initState ⟨rfl, rfl, by decide, rfl, trivial⟩).1

/-- Claim C6 counterexample: when the first invocation's marker put fails
(every step fail-soft, the head call truthfully reporting no marker each
time), the controller performs two successful canonical writes only 100
seconds apart, violating the claimed cooldown invariant. -/
theorem kb_write_cooldown_counterexample :
    writeTimes c6BadTrace initState = [0, 100] ∧
      ¬ List.Pairwise (fun a b : ℚ => a + 3600 ≤ b) (writeTimes c6BadTrace initState) := by
  have hlist : writeTimes c6BadTrace initState = [0, 100] := by decide
  refine ⟨hlist, ?_⟩
  rw [hlist]
  intro hp
  have h100 := List.rel_of_pairwise_cons hp (List.mem_singleton.mpr rfl)
  norm_num at h100

end IssueBot
